import Mathlib

/-!
Shallow embedding of the simulation core of `src/App.tsx` (a
missile-command style arcade game).  Pure geometry lives in `ℝ`
(positions evolve by normalised direction vectors, which requires a
square root); all discrete bookkeeping (score, round, ammo, timers,
radii) lives in `ℤ`, `ℕ` and `ℚ` so that it stays decidable.  Every
definition is translated directly from the TypeScript source; comments
cite the corresponding lines.
-/

namespace SunLight

/-- Game status enumeration, from `enum GameStatus` (App.tsx lines 19-25). -/
inductive GameStatus where
  | START
  | PLAYING
  | ROUND_END
  | GAME_OVER
  | WIN
deriving DecidableEq, Repr

/-- 2D point `{x, y}` (App.tsx line 12).  Coordinates are real numbers. -/
structure Point where
  x : ℝ
  y : ℝ

/-- Euclidean distance used by every arrival / collision test:
`Math.sqrt(dx*dx + dy*dy)` where `dx = q.x - p.x`, `dy = q.y - p.y`. -/
noncomputable def ptDist (p q : Point) : ℝ :=
  Real.sqrt ((q.x - p.x) * (q.x - p.x) + (q.y - p.y) * (q.y - p.y))

/-- `const WIN_SCORE = 1000` (App.tsx line 102). -/
def WIN_SCORE : ℤ := 1000

/-- `const INITIAL_AMMO = [20, 40, 20]` (App.tsx line 103). -/
def INITIAL_AMMO : List ℤ := [20, 40, 20]

/-- `class EnemyRocket` fields (App.tsx lines 144-157).  The TypeScript
field `end` is called `endPt` here because `end` is a Lean keyword. -/
structure EnemyRocket where
  start : Point
  endPt : Point
  pos : Point
  speed : ℚ
  targetIndex : ℕ

/-- The `EnemyRocket` constructor (App.tsx lines 151-157).  `launch` is the
value of `Math.random()` used for the launch x-coordinate. -/
def EnemyRocket.new (width height targetX : ℚ) (targetIndex : ℕ) (speed : ℚ)
    (launch : ℚ) : EnemyRocket :=
  { start := ⟨(launch * width : ℚ), 0⟩
    endPt := ⟨(targetX : ℚ), ((height - 40 : ℚ) : ℝ)⟩
    pos := ⟨(launch * width : ℚ), 0⟩
    speed := speed * (2 / 3)   -- `this.speed = speed * (2 / 3)`
    targetIndex := targetIndex }

/-- `EnemyRocket.update` (App.tsx lines 159-173): returns `false` (dead)
when the remaining distance to `end` is `< 2`, otherwise advances `pos`
along the unit direction by `speed * dt`. -/
noncomputable def EnemyRocket.update (dt : ℚ) (r : EnemyRocket) :
    Bool × EnemyRocket :=
  let d := ptDist r.pos r.endPt
  if d < 2 then (false, r)
  else
    (true,
      { r with pos :=
          ⟨r.pos.x + (r.endPt.x - r.pos.x) / d * (r.speed : ℝ) * (dt : ℚ),
           r.pos.y + (r.endPt.y - r.pos.y) / d * (r.speed : ℝ) * (dt : ℚ)⟩ })

/-- `class InterceptorMissile` fields (App.tsx lines 188-198).  The field
`speed` is declared with initialiser `400` and is never assigned again. -/
structure InterceptorMissile where
  start : Point
  target : Point
  pos : Point
  speed : ℚ

/-- The `InterceptorMissile` constructor (App.tsx lines 194-198). -/
def InterceptorMissile.new (start target : Point) : InterceptorMissile :=
  { start := start, target := target, pos := start, speed := 400 }

/-- `InterceptorMissile.update` (App.tsx lines 200-214): dead when the
remaining distance to `target` is `< 5`, otherwise the same linear homing
step as the enemy rocket. -/
noncomputable def InterceptorMissile.update (dt : ℚ) (m : InterceptorMissile) :
    Bool × InterceptorMissile :=
  let d := ptDist m.pos m.target
  if d < 5 then (false, m)
  else
    (true,
      { m with pos :=
          ⟨m.pos.x + (m.target.x - m.pos.x) / d * (m.speed : ℝ) * (dt : ℚ),
           m.pos.y + (m.target.y - m.pos.y) / d * (m.speed : ℝ) * (dt : ℚ)⟩ })

/-- `class Explosion` fields (App.tsx lines 239-248).  `radius`,
`maxRadius` and `speed` are kept in `ℚ` (their arithmetic never leaves the
rationals); `maxRadius = 45` and `speed = 60` are the field initialisers. -/
structure Explosion where
  pos : Point
  radius : ℚ
  maxRadius : ℚ
  growing : Bool
  speed : ℚ

/-- The `Explosion` constructor (App.tsx lines 241-248): starts at radius
`0`, growing, with `maxRadius = 45` and expansion `speed = 60`. -/
def Explosion.new (pos : Point) : Explosion :=
  { pos := pos, radius := 0, maxRadius := 45, growing := true, speed := 60 }

/-- `Explosion.update` (App.tsx lines 250-260): while growing the radius
increases by `speed * dt` and growth stops once it reaches `maxRadius`
(no clamping); afterwards it shrinks by `speed * 0.6 * dt`.  The return
value is `radius > 0` evaluated after the mutation. -/
def Explosion.update (dt : ℚ) (e : Explosion) : Bool × Explosion :=
  let e' :=
    if e.growing then
      let r := e.radius + e.speed * dt
      { e with radius := r, growing := if r ≥ e.maxRadius then false else e.growing }
    else
      { e with radius := e.radius - e.speed * (6 / 10) * dt }
  (decide (0 < e'.radius), e')

/-! Frame-driver phases (the body of `loop` in App.tsx lines 407-564,
restricted to the simulation: drawing calls are omitted). -/

/-- Processing of one interceptor inside the filter of App.tsx lines
428-435: update it; if dead, push an `Explosion` at its stored `target`
(not at its final position) and drop it, otherwise keep it. -/
noncomputable def interceptorStep (dt : ℚ) (m : InterceptorMissile) :
    List InterceptorMissile × List Explosion :=
  let u := m.update dt
  if u.1 then ([u.2], []) else ([], [Explosion.new m.target])

/-- The interceptor filter pass (App.tsx lines 428-435), returning the
surviving interceptors and the explosions pushed during the pass, in
order. -/
noncomputable def interceptorPhase (dt : ℚ) :
    List InterceptorMissile → List InterceptorMissile × List Explosion
  | [] => ([], [])
  | m :: rest =>
    let a := interceptorStep dt m
    let b := interceptorPhase dt rest
    (a.1 ++ b.1, a.2 ++ b.2)

/-- The inner enemy filter of one explosion (App.tsx lines 442-452): an
enemy is dropped when its distance to the explosion's centre is strictly
below the explosion's current radius.  Returns the survivors and the
number of enemies removed (each removal contributes `+20` score and `+1`
to `enemiesDestroyed`). -/
noncomputable def collide (e : Explosion) : List EnemyRocket → List EnemyRocket × ℕ
  | [] => ([], 0)
  | en :: rest =>
    let p := collide e rest
    if ptDist e.pos en.pos < (e.radius : ℚ) then (p.1, p.2 + 1)
    else (en :: p.1, p.2)

/-- The explosion filter pass (App.tsx lines 437-455): each explosion is
updated, then the enemy collision filter runs against the updated
explosion (its mutated `radius`), score gains `20` per removed enemy and
`enemiesDestroyed` is incremented; the explosion itself survives iff its
update returned `true`. -/
noncomputable def explosionPhase (dt : ℚ) :
    List Explosion → List EnemyRocket → ℤ → ℕ →
      List Explosion × List EnemyRocket × ℤ × ℕ
  | [], enemies, score, destroyed => ([], enemies, score, destroyed)
  | e :: rest, enemies, score, destroyed =>
    let u := e.update dt
    let c := collide u.2 enemies
    let p := explosionPhase dt rest c.1 (score + 20 * (c.2 : ℤ)) (destroyed + c.2)
    (if u.1 then u.2 :: p.1 else p.1, p.2.1, p.2.2.1, p.2.2.2)

/-- Hit resolution for a dead enemy rocket (App.tsx lines 460-477): a
`targetIndex` below 6 destroys that city, otherwise battery
`targetIndex - 6` is destroyed. -/
def resolveHit (idx : ℕ) (cities batteries : List Bool) :
    List Bool × List Bool :=
  if idx < 6 then (cities.set idx false, batteries)
  else (cities, batteries.set (idx - 6) false)

/-- The enemy filter pass (App.tsx lines 457-482): each enemy is updated;
a dead enemy resolves its hit, pushes an `Explosion` at its current
position and is dropped; a live enemy is kept with its advanced
position. -/
noncomputable def enemyPhase (dt : ℚ) :
    List EnemyRocket → List Bool → List Bool → List Explosion →
      List EnemyRocket × List Bool × List Bool × List Explosion
  | [], cities, batteries, explosions => ([], cities, batteries, explosions)
  | en :: rest, cities, batteries, explosions =>
    let u := en.update dt
    if u.1 then
      let p := enemyPhase dt rest cities batteries explosions
      (u.2 :: p.1, p.2.1, p.2.2.1, p.2.2.2)
    else
      let h := resolveHit en.targetIndex cities batteries
      enemyPhase dt rest h.1 h.2 (explosions ++ [Explosion.new en.pos])

/-! Simulation state and command surface. -/

/-- Per-spawn random draws: `pick` feeds
`Math.floor(Math.random() * availableTargets.length)`, `jitter` is the
`Math.random()` added to the respawned timer, `launch` is the
`Math.random()` inside the `EnemyRocket` constructor.  Each is a value of
`Math.random()`, i.e. lies in `[0, 1)`. -/
structure SpawnEnv where
  pick : ℚ
  jitter : ℚ
  launch : ℚ

/-- The combined React state (`useState` hooks, App.tsx lines 281-286) and
loop state (`stateRef`, lines 291-302) that the simulation reads and
writes.  `lastTime` is replaced by passing `dt` explicitly and the
write-only `roundActive` flag is omitted (it is never read). -/
structure GameState where
  status : GameStatus
  score : ℤ
  round : ℕ
  ammo : List ℤ
  cities : List Bool
  batteries : List Bool
  enemies : List EnemyRocket
  interceptors : List InterceptorMissile
  explosions : List Explosion
  spawnTimer : ℚ
  enemiesToSpawn : ℕ
  enemiesDestroyed : ℕ
  width : ℚ
  height : ℚ

/-- State at mount (initial `useState` / `useRef` values, App.tsx lines
281-302). -/
def initialState (w h : ℚ) : GameState :=
  { status := GameStatus.START, score := 0, round := 1
    ammo := INITIAL_AMMO
    cities := List.replicate 6 true, batteries := List.replicate 3 true
    enemies := [], interceptors := [], explosions := []
    spawnTimer := 0, enemiesToSpawn := 10, enemiesDestroyed := 0
    width := w, height := h }

/-- `initRound` (App.tsx lines 304-313).  It is a `useCallback` with
dependency `[round]`, so the round value it uses is the one captured at
the render that created the callback; callers pass that captured value as
`roundArg`. -/
def initRound (roundArg : ℕ) (s : GameState) : GameState :=
  { s with
      enemies := [], interceptors := [], explosions := []
      enemiesToSpawn := 10 + roundArg * 5
      enemiesDestroyed := 0
      spawnTimer := 0
      ammo := INITIAL_AMMO }

/-- `startGame` (App.tsx lines 315-322).  `setRound(1)` only schedules the
state update; the `initRound` closure still holds the previous round, so
the enemy count of the first round is computed from the stale value. -/
def startGame (s : GameState) : GameState :=
  initRound s.round
    { s with score := 0, round := 1
             cities := List.replicate 6 true
             batteries := List.replicate 3 true
             status := GameStatus.PLAYING }

/-- `nextRound` (App.tsx lines 324-331): adds `sum(ammo) * 5` to the
score, increments the round and re-initialises.  As in `startGame`, the
`initRound` closure still holds the pre-increment round, so
`enemiesToSpawn` is computed from `s.round`, not `s.round + 1`. -/
def nextRound (s : GameState) : GameState :=
  initRound s.round
    { s with score := s.score + s.ammo.sum * 5
             round := s.round + 1
             status := GameStatus.PLAYING }

/-- The three battery x-positions paired with their indices
(App.tsx lines 357-361). -/
def batteryPositions (width : ℚ) : List (ℚ × ℕ) :=
  [(40, 0), (width / 2, 1), (width - 40, 2)]

/-- The `forEach` loop of App.tsx lines 363-374: the accumulator carries
the best `(x-position, index, distance)` so far (`none` plays the role of
`bestBattery = -1` / `minDist = Infinity`).  Only batteries that are alive
and have strictly positive ammo are considered; a strict `<` keeps the
earliest battery on ties. -/
def pickBattery (x : ℚ) (bats : List Bool) (ammo : List ℤ) :
    List (ℚ × ℕ) → Option (ℚ × ℕ × ℚ) → Option (ℚ × ℕ × ℚ)
  | [], best => best
  | bp :: rest, best =>
    if bats.getD bp.2 false ∧ 0 < ammo.getD bp.2 0 then
      let d := |x - bp.1|
      match best with
      | none => pickBattery x bats ammo rest (some (bp.1, bp.2, d))
      | some b =>
        if d < b.2.2 then pickBattery x bats ammo rest (some (bp.1, bp.2, d))
        else pickBattery x bats ammo rest (some b)
    else pickBattery x bats ammo rest best

/-- `handleCanvasClick` (App.tsx lines 333-384) with the click already
translated to canvas coordinates `(x, y)`: ignored unless `PLAYING`,
ignored when `y > height - 60`; otherwise the nearest alive battery with
ammo fires an interceptor from `(batteryX, height - 40)` towards the
click and loses one round of ammo.  If no battery qualifies the click is
dropped. -/
def handlePress (x y : ℚ) (s : GameState) : GameState :=
  if s.status ≠ GameStatus.PLAYING then s
  else if y > s.height - 60 then s
  else
    match pickBattery x s.batteries s.ammo (batteryPositions s.width) none with
    | none => s
    | some b =>
      { s with
          interceptors := s.interceptors ++
            [InterceptorMissile.new ⟨(b.1 : ℚ), ((s.height - 40 : ℚ) : ℝ)⟩
              ⟨(x : ℚ), (y : ℚ)⟩]
          ammo := s.ammo.set b.2.1 (s.ammo.getD b.2.1 0 - 1) }

/-- Indices of the `true` entries of a boolean list, offset by `i0`
(models `list.forEach((alive, i) => alive && availableTargets.push(i))`,
App.tsx lines 490-491). -/
def trueIdxs : List Bool → ℕ → List ℕ
  | [], _ => []
  | b :: rest, i0 => (if b then [i0] else []) ++ trueIdxs rest (i0 + 1)

/-- `availableTargets`: alive city indices `0..5` followed by alive
battery indices shifted to `6..8` (App.tsx lines 489-491). -/
def availableTargets (cities batteries : List Bool) : List ℕ :=
  trueIdxs cities 0 ++ (trueIdxs batteries 0).map (· + 6)

/-- The city layout slots `spacing * [1.5, 2.5, 3.5, 5.5, 6.5, 7.5]` with
`spacing = width / 9` (App.tsx lines 498-500). -/
def cityX (width : ℚ) (i : ℕ) : ℚ :=
  (width / 9) * ([3 / 2, 5 / 2, 7 / 2, 11 / 2, 13 / 2, 15 / 2].getD i 0)

/-- The battery layout slots `[40, width / 2, width - 40]`
(App.tsx lines 503-505). -/
def batteryX (width : ℚ) (i : ℕ) : ℚ :=
  [40, width / 2, width - 40].getD i 0

/-- The spawn-scheduling block (App.tsx lines 484-514).  The `cities` and
`batteries` arguments are the values captured by the effect closure, i.e.
the React state from the last render (they can differ from the lists the
enemy phase just produced this same tick).  The timer is decremented
first; at or below zero a target is drawn uniformly from the alive
structures, an `EnemyRocket` with nominal speed `40 + round * 10` is
pushed, `enemiesToSpawn` drops by one and the timer is reset to
`1.5 - min(1, round * 0.1) + random`.  With no alive target, only the
timer decrement remains. -/
def spawnStep (dt : ℚ) (env : SpawnEnv) (cities batteries : List Bool)
    (s : GameState) : GameState :=
  if s.status = GameStatus.PLAYING ∧ 0 < s.enemiesToSpawn then
    let timer := s.spawnTimer - dt
    if timer ≤ 0 then
      let targets := availableTargets cities batteries
      if targets.isEmpty then { s with spawnTimer := timer }
      else
        let targetIdx := targets.getD (Nat.floor (env.pick * (targets.length : ℚ))) 0
        let targetX :=
          if targetIdx < 6 then cityX s.width targetIdx
          else batteryX s.width (targetIdx - 6)
        { s with
            enemies := s.enemies ++
              [EnemyRocket.new s.width s.height targetX targetIdx
                (40 + (s.round : ℚ) * 10) env.launch]
            enemiesToSpawn := s.enemiesToSpawn - 1
            spawnTimer := 3 / 2 - min 1 ((s.round : ℚ) * (1 / 10)) + env.jitter }
    else { s with spawnTimer := timer }
  else s

/-- One animation-frame tick (the simulation part of `loop`,
App.tsx lines 407-564) with the already-clamped `dt`.  Order inside the
tick: interceptors (dead ones push explosions that the explosion pass of
the same tick already sees), explosions with enemy collisions, enemies
with hit resolution, spawn scheduling (reading the closure's `cities` /
`batteries`), then the round-end check on the post-spawn collections. -/
noncomputable def tick (dt : ℚ) (env : SpawnEnv) (s : GameState) : GameState :=
  if s.status = GameStatus.PLAYING ∨ s.status = GameStatus.ROUND_END then
    let ip := interceptorPhase dt s.interceptors
    let ep := explosionPhase dt (s.explosions ++ ip.2) s.enemies s.score
      s.enemiesDestroyed
    let np := enemyPhase dt ep.2.1 s.cities s.batteries ep.1
    let s1 := { s with
        interceptors := ip.1
        enemies := np.1
        cities := np.2.1
        batteries := np.2.2.1
        explosions := np.2.2.2
        score := ep.2.2.1
        enemiesDestroyed := ep.2.2.2 }
    let s2 := spawnStep dt env s.cities s.batteries s1
    if s2.status = GameStatus.PLAYING ∧ s2.enemiesToSpawn = 0 ∧
        s2.enemies.isEmpty then
      { s2 with status := GameStatus.ROUND_END }
    else s2
  else s

/-- The win / loss `useEffect` (App.tsx lines 574-583), which runs only
while `PLAYING`: `score >= WIN_SCORE` sets `WIN`, and all batteries dead
sets `GAME_OVER`.  Both `if`s run in order, so when both conditions hold
the later `setStatus(GAME_OVER)` wins. -/
def checkWinLoss (st : GameStatus) (score : ℤ) (batteries : List Bool) :
    GameStatus :=
  if st = GameStatus.PLAYING then
    let st1 := if WIN_SCORE ≤ score then GameStatus.WIN else st
    if batteries.all (fun b => !b) then GameStatus.GAME_OVER else st1
  else st

/-- The win / loss effect as a state transformer. -/
def applyWinLoss (s : GameState) : GameState :=
  { s with status := checkWinLoss s.status s.score s.batteries }

/-- States reachable from a fresh mount through the command surface:
clicks (`handlePress`), animation frames (`tick`), the round-end button
(`nextRound`), the start / restart button (`startGame`) and the win-loss
effect. -/
inductive Reachable : GameState → Prop where
  | init (w h : ℚ) : Reachable (initialState w h)
  | press (x y : ℚ) {s : GameState} : Reachable s → Reachable (handlePress x y s)
  | frame (dt : ℚ) (env : SpawnEnv) {s : GameState} :
      Reachable s → Reachable (tick dt env s)
  | next {s : GameState} : Reachable s → Reachable (nextRound s)
  | restart {s : GameState} : Reachable s → Reachable (startGame s)
  | wincheck {s : GameState} : Reachable s → Reachable (applyWinLoss s)

/-- Explosions reachable from a fresh `Explosion` through update calls
whose `dt` lies in `(0, dtmax]` (the loop clamps `dt` to at most `0.1`,
and a rendered frame always has `dt > 0`). -/
inductive ReachableBlast (dtmax : ℚ) : Explosion → Prop where
  | new (p : Point) : ReachableBlast dtmax (Explosion.new p)
  | step (e : Explosion) (dt : ℚ) : ReachableBlast dtmax e → 0 < dt →
      dt ≤ dtmax → ReachableBlast dtmax (e.update dt).2

/-- The collision predicate of App.tsx lines 443-446, stated for an
explosion that has already been updated this frame: the enemy is caught
when its Euclidean distance to the explosion's centre is strictly below
the explosion's current radius. -/
def blastHits (e : Explosion) (en : EnemyRocket) : Prop :=
  ptDist e.pos en.pos < (e.radius : ℚ)

/-- A concrete `PLAYING` state with ammo `[0, 5, 0]` and all structures
alive, used to exercise the firing command. -/
def pressSample : GameState :=
  { initialState 900 600 with status := GameStatus.PLAYING, ammo := [0, 5, 0] }

/-- A concrete `PLAYING` state in which no battery has ammo. -/
def pressSampleEmpty : GameState :=
  { initialState 900 600 with status := GameStatus.PLAYING, ammo := [0, 0, 0] }

/-- A concrete enemy rocket sitting exactly on its end point (so its next
update reports death). -/
def deadRocket : EnemyRocket :=
  { start := ⟨0, 0⟩, endPt := ⟨100, 200⟩, pos := ⟨100, 200⟩, speed := 50
    targetIndex := 3 }

/-- A concrete interceptor 3 units away from its target (inside the
arrival threshold 5, so its next update reports death) whose position
differs from its target. -/
def deadMissile : InterceptorMissile :=
  { start := ⟨0, 0⟩, target := ⟨3, 0⟩, pos := ⟨0, 0⟩, speed := 400 }

/-! Theorems. -/

/-- C1: the next-round command in state `ROUND_END` adds `sum(ammo) * 5`
to the score, increments the round, clears all entity collections,
resets ammo to `[20, 40, 20]`, `enemiesDestroyed = 0`, `spawnTimer = 0`,
status `PLAYING` — but, because the `initRound` callback still closes
over the pre-increment round `r`, the re-initialised round has
`enemiesToSpawn = 10 + r * 5`, not `10 + (r + 1) * 5` as the claim's
parenthetical says (amended form). -/
theorem c1_nextRound_reinit (s : GameState) (h : s.status = GameStatus.ROUND_END) :
    (nextRound s).score = s.score + s.ammo.sum * 5 ∧
    (nextRound s).round = s.round + 1 ∧
    (nextRound s).enemies = [] ∧
    (nextRound s).interceptors = [] ∧
    (nextRound s).explosions = [] ∧
    (nextRound s).ammo = [20, 40, 20] ∧
    (nextRound s).enemiesDestroyed = 0 ∧
    (nextRound s).spawnTimer = 0 ∧
    (nextRound s).status = GameStatus.PLAYING ∧
    (nextRound s).enemiesToSpawn = 10 + s.round * 5 := by
  simp [nextRound, initRound, INITIAL_AMMO]

/-- Witness for C1's amended theorem at a concrete `ROUND_END` state. -/
theorem c1_nextRound_reinit_witness :
    let s := { initialState 900 600 with status := GameStatus.ROUND_END }
    (nextRound s).score = s.score + s.ammo.sum * 5 ∧
    (nextRound s).round = s.round + 1 ∧
    (nextRound s).enemies = [] ∧
    (nextRound s).interceptors = [] ∧
    (nextRound s).explosions = [] ∧
    (nextRound s).ammo = [20, 40, 20] ∧
    (nextRound s).enemiesDestroyed = 0 ∧
    (nextRound s).spawnTimer = 0 ∧
    (nextRound s).status = GameStatus.PLAYING ∧
    (nextRound s).enemiesToSpawn = 10 + s.round * 5 :=
  c1_nextRound_reinit { initialState 900 600 with status := GameStatus.ROUND_END } rfl

/-- C1 counterexample: from a `ROUND_END` state with round `1`, the
next-round command yields round `2` but `enemiesToSpawn = 15 = 10 + 1*5`,
refuting the claimed `10 + (r + 1) * 5 = 20`. -/
theorem c1_counterexample :
    let s := { initialState 900 600 with status := GameStatus.ROUND_END }
    s.status = GameStatus.ROUND_END ∧ s.round = 1 ∧
    (nextRound s).round = s.round + 1 ∧
    (nextRound s).enemiesToSpawn = 15 ∧
    ¬ (nextRound s).enemiesToSpawn = 10 + (s.round + 1) * 5 := by
  refine ⟨rfl, rfl, rfl, rfl, ?_⟩
  decide

/-- C5 (amended): while `PLAYING`, a score of at least `1000` moves the
status to `WIN` provided not every battery is destroyed; whenever every
battery is destroyed the status moves to `GAME_OVER` (this branch wins
when both conditions hold at once); in any status other than `PLAYING`
the check changes nothing. -/
theorem c5_win_loss (st : GameStatus) (score : ℤ) (batteries : List Bool) :
    (st = GameStatus.PLAYING → WIN_SCORE ≤ score →
      batteries.all (fun b => !b) = false →
      checkWinLoss st score batteries = GameStatus.WIN) ∧
    (st = GameStatus.PLAYING → batteries.all (fun b => !b) = true →
      checkWinLoss st score batteries = GameStatus.GAME_OVER) ∧
    (st ≠ GameStatus.PLAYING → checkWinLoss st score batteries = st) := by
  refine ⟨fun h1 h2 h3 => ?_, fun h1 h2 => ?_, fun h1 => ?_⟩ <;>
    simp [checkWinLoss, h1, *]

/-- Witness for C5's amended theorem at concrete inputs. -/
theorem c5_win_loss_witness :
    checkWinLoss GameStatus.PLAYING 1000 [true, false, false] = GameStatus.WIN ∧
    checkWinLoss GameStatus.PLAYING 0 [false, false, false] = GameStatus.GAME_OVER ∧
    checkWinLoss GameStatus.START 2000 [] = GameStatus.START :=
  ⟨(c5_win_loss GameStatus.PLAYING 1000 [true, false, false]).1 rfl (by decide)
      (by decide),
   (c5_win_loss GameStatus.PLAYING 0 [false, false, false]).2.1 rfl (by decide),
   (c5_win_loss GameStatus.START 2000 []).2.2 (by decide)⟩

/-- C5 counterexample: with score `1000` and every battery destroyed
while `PLAYING`, the effect ends in `GAME_OVER`, not `WIN` — the claimed
unconditional transition to `WIN` on `score ≥ 1000` is false. -/
theorem c5_counterexample :
    checkWinLoss GameStatus.PLAYING WIN_SCORE [false, false, false] =
      GameStatus.GAME_OVER ∧
    GameStatus.GAME_OVER ≠ GameStatus.WIN := by
  decide

/-- Radius after a growth step of `Explosion.update`. -/
theorem Explosion.update_growing_radius (dt : ℚ) (e : Explosion)
    (h : e.growing = true) :
    ((e.update dt).2).radius = e.radius + e.speed * dt := by
  simp [Explosion.update, h]

/-- Growing flag after a growth step of `Explosion.update`. -/
theorem Explosion.update_growing_flag (dt : ℚ) (e : Explosion)
    (h : e.growing = true) :
    ((e.update dt).2).growing =
      (if e.radius + e.speed * dt ≥ e.maxRadius then false else true) := by
  simp [Explosion.update, h]

/-- Radius after a shrink step of `Explosion.update`. -/
theorem Explosion.update_shrink_radius (dt : ℚ) (e : Explosion)
    (h : e.growing = false) :
    ((e.update dt).2).radius = e.radius - e.speed * (6 / 10) * dt := by
  simp [Explosion.update, h]

/-- Growing flag after a shrink step of `Explosion.update`. -/
theorem Explosion.update_shrink_flag (dt : ℚ) (e : Explosion)
    (h : e.growing = false) : ((e.update dt).2).growing = false := by
  simp [Explosion.update, h]

/-- `Explosion.update` never changes `maxRadius`. -/
theorem Explosion.update_maxRadius (dt : ℚ) (e : Explosion) :
    ((e.update dt).2).maxRadius = e.maxRadius := by
  simp only [Explosion.update]
  split <;> rfl

/-- `Explosion.update` never changes `speed`. -/
theorem Explosion.update_speed (dt : ℚ) (e : Explosion) :
    ((e.update dt).2).speed = e.speed := by
  simp only [Explosion.update]
  split <;> rfl

/-- The liveness bit of `Explosion.update` is exactly
`radius > 0` evaluated on the post-update radius. -/
theorem Explosion.update_alive (dt : ℚ) (e : Explosion) :
    (e.update dt).1 = decide (0 < ((e.update dt).2).radius) := rfl

/-- Invariant carried by every explosion reachable through positive
clamped time steps: the constant fields keep their initial values, the
radius stays below `45` while still growing, and it never reaches
`45 + 60 * dtmax` (it can, however, exceed `45`). -/
theorem blast_invariant (dtmax : ℚ) (hmax : 0 < dtmax) {e : Explosion}
    (he : ReachableBlast dtmax e) :
    e.maxRadius = 45 ∧ e.speed = 60 ∧
    (e.growing = true → e.radius < 45) ∧ e.radius < 45 + 60 * dtmax := by
  induction he with
  | new p =>
    refine ⟨rfl, rfl, fun _ => by norm_num [Explosion.new], ?_⟩
    show (0 : ℚ) < 45 + 60 * dtmax
    linarith
  | step e dt he hdt hle ih =>
    obtain ⟨hm, hs, hg, hb⟩ := ih
    refine ⟨by rw [Explosion.update_maxRadius, hm],
      by rw [Explosion.update_speed, hs], ?_, ?_⟩
    · intro hg'
      by_cases hgrow : e.growing
      · have hrad := hg hgrow
        rw [Explosion.update_growing_flag dt e hgrow, hm, hs] at hg'
        rw [Explosion.update_growing_radius dt e hgrow, hs]
        by_cases hflip : e.radius + 60 * dt ≥ 45
        · rw [if_pos hflip] at hg'
          exact absurd hg' (by simp)
        · push_neg at hflip
          exact hflip
      · have hgrow' : e.growing = false := by simpa using hgrow
        rw [Explosion.update_shrink_flag dt e hgrow'] at hg'
        exact absurd hg' (by simp)
    · by_cases hgrow : e.growing
      · have hrad := hg hgrow
        rw [Explosion.update_growing_radius dt e hgrow, hs]
        linarith
      · have hgrow' : e.growing = false := by simpa using hgrow
        rw [Explosion.update_shrink_radius dt e hgrow', hs]
        nlinarith

/-- C2 (amended): for every explosion reached by updates with `dt` in
`(0, dtmax]`, one more update with such a `dt` strictly increases the
radius while `growing` and strictly decreases it once `growing` is off,
the update reports removal exactly when the post-update radius is `≤ 0`,
and the radius is bounded by `45 + 60 * dtmax` — it can overshoot the
claimed ceiling of `maxRadius = 45` by up to one growth step. -/
theorem c2_blast_radius (dtmax dt : ℚ) (e : Explosion) (hmax : 0 < dtmax)
    (he : ReachableBlast dtmax e) (h1 : 0 < dt) (h2 : dt ≤ dtmax) :
    (e.growing = true → e.radius < ((e.update dt).2).radius) ∧
    (e.growing = false → ((e.update dt).2).radius < e.radius) ∧
    (((e.update dt).1 = false) ↔ ((e.update dt).2).radius ≤ 0) ∧
    e.radius < 45 + 60 * dtmax := by
  obtain ⟨hm, hs, hg, hb⟩ := blast_invariant dtmax hmax he
  refine ⟨fun hgrow => ?_, fun hgrow => ?_, ?_, hb⟩
  · rw [Explosion.update_growing_radius dt e hgrow, hs]
    linarith
  · rw [Explosion.update_shrink_radius dt e hgrow, hs]
    nlinarith
  · rw [Explosion.update_alive]
    simp [decide_eq_false_iff_not, not_lt]

/-- Witness for C2's amended theorem on a freshly constructed explosion. -/
theorem c2_blast_radius_witness :
    ((Explosion.new ⟨0, 0⟩).growing = true →
      (Explosion.new ⟨0, 0⟩).radius <
        (((Explosion.new ⟨0, 0⟩).update (1 / 20)).2).radius) ∧
    ((Explosion.new ⟨0, 0⟩).growing = false →
      (((Explosion.new ⟨0, 0⟩).update (1 / 20)).2).radius <
        (Explosion.new ⟨0, 0⟩).radius) ∧
    ((((Explosion.new ⟨0, 0⟩).update (1 / 20)).1 = false) ↔
      (((Explosion.new ⟨0, 0⟩).update (1 / 20)).2).radius ≤ 0) ∧
    (Explosion.new ⟨0, 0⟩).radius < 45 + 60 * (1 / 10) :=
  c2_blast_radius (1 / 10) (1 / 20) (Explosion.new ⟨0, 0⟩) (by norm_num)
    (ReachableBlast.new ⟨0, 0⟩) (by norm_num) (by norm_num)

/-- C2 counterexample: eight consecutive updates with the maximal clamped
`dt = 0.1` (each positive) drive a fresh explosion's radius to `48`,
which exceeds the claimed ceiling `maxRadius = 45`. -/
theorem c2_counterexample :
    (0 : ℚ) < 1 / 10 ∧
    45 < (([1 / 10, 1 / 10, 1 / 10, 1 / 10, 1 / 10, 1 / 10, 1 / 10,
        (1 : ℚ) / 10]).foldl
      (fun e dt => (e.update dt).2) (Explosion.new ⟨0, 0⟩)).radius := by
  constructor
  · norm_num
  · norm_num [List.foldl_cons, List.foldl_nil, Explosion.update, Explosion.new]

/-- Soundness of the battery pick: whatever `pickBattery` returns either
was already in the accumulator or passed the `alive && ammo > 0` filter. -/
theorem pickBattery_sound (x : ℚ) (bats : List Bool) (ammo : List ℤ)
    (l : List (ℚ × ℕ)) (acc : Option (ℚ × ℕ × ℚ))
    (hacc : ∀ b, acc = some b →
      bats.getD b.2.1 false = true ∧ 0 < ammo.getD b.2.1 0)
    (b : ℚ × ℕ × ℚ) (h : pickBattery x bats ammo l acc = some b) :
    bats.getD b.2.1 false = true ∧ 0 < ammo.getD b.2.1 0 := by
  induction l generalizing acc with
  | nil =>
    exact hacc b (by simpa [pickBattery] using h)
  | cons bp rest ih =>
    rw [pickBattery] at h
    by_cases hc : bats.getD bp.2 false = true ∧ 0 < ammo.getD bp.2 0
    · rw [if_pos hc] at h
      cases hb : acc with
      | none =>
        rw [hb] at h
        exact ih (some (bp.1, bp.2, |x - bp.1|))
          (fun c hceq => by
            rw [Option.some_inj] at hceq
            exact hceq ▸ hc) h
      | some b0 =>
        rw [hb] at h
        dsimp only at h
        by_cases hd : |x - bp.1| < b0.2.2
        · rw [if_pos hd] at h
          exact ih (some (bp.1, bp.2, |x - bp.1|))
            (fun c hceq => by
              rw [Option.some_inj] at hceq
              exact hceq ▸ hc) h
        · rw [if_neg hd] at h
          exact ih (some b0)
            (fun c hceq => by
              rw [Option.some_inj] at hceq
              exact hceq ▸ hacc b0 hb) h
    · rw [if_neg hc] at h
      exact ih acc hacc h

/-- C3 (amended): with all batteries alive and ammo `[0, 5, 0]`, a click
in the playable band while `PLAYING` is not dropped: battery 0 is
excluded by the `ammo > 0` filter even when it is nearest, and the
nearest battery with ammo — battery 1 — fires, leaving ammo `[0, 4, 0]`.
A battery with zero ammo (or a dead battery) is never selected, and when
no alive battery has ammo the input is dropped with no state change. -/
theorem c3_fire_selection (x y : ℚ) (s : GameState) :
    (s.status = GameStatus.PLAYING → ¬ y > s.height - 60 →
      s.batteries = [true, true, true] → s.ammo = [0, 5, 0] →
      handlePress x y s =
        { s with
            interceptors := s.interceptors ++
              [InterceptorMissile.new ⟨((s.width / 2 : ℚ) : ℝ), ((s.height - 40 : ℚ) : ℝ)⟩
                ⟨(x : ℚ), (y : ℚ)⟩]
            ammo := [0, 4, 0] }) ∧
    (∀ b, pickBattery x s.batteries s.ammo (batteryPositions s.width) none = some b →
      s.batteries.getD b.2.1 false = true ∧ 0 < s.ammo.getD b.2.1 0) ∧
    ((∀ i, ¬ (s.batteries.getD i false = true ∧ 0 < s.ammo.getD i 0)) →
      handlePress x y s = s) := by
  refine ⟨fun hst hy hb ha => ?_, fun b hpick => ?_, fun hnone => ?_⟩
  · simp [handlePress, hst, hy, batteryPositions, pickBattery, hb, ha]
  · exact pickBattery_sound x s.batteries s.ammo (batteryPositions s.width) none
      (fun c hc => by simp at hc) b hpick
  · have h0 := hnone 0
    have h1 := hnone 1
    have h2 := hnone 2
    simp only [List.getD, List.get?_eq_getElem?] at h0 h1 h2
    simp [handlePress, batteryPositions, pickBattery, h0, h1, h2]

/-- Witness for C3's amended theorem: at a concrete state with ammo
`[0, 5, 0]` and a click right above battery 0, battery 1 fires; at a
concrete state with no ammo anywhere the click is dropped. -/
theorem c3_fire_selection_witness :
    (handlePress 40 100 pressSample =
      { pressSample with
          interceptors := pressSample.interceptors ++
            [InterceptorMissile.new
              ⟨((pressSample.width / 2 : ℚ) : ℝ), ((pressSample.height - 40 : ℚ) : ℝ)⟩
              ⟨((40 : ℚ) : ℝ), ((100 : ℚ) : ℝ)⟩]
          ammo := [0, 4, 0] }) ∧
    handlePress 40 100 pressSampleEmpty = pressSampleEmpty :=
  ⟨(c3_fire_selection 40 100 pressSample).1 rfl (by norm_num [pressSample, initialState])
      rfl rfl,
   (c3_fire_selection 40 100 pressSampleEmpty).2.2 (fun i => by
     have hz : pressSampleEmpty.ammo.getD i 0 = 0 := by
       match i with
       | 0 => rfl
       | 1 => rfl
       | 2 => rfl
       | n + 3 => rfl
     simp only [List.getD, List.get?_eq_getElem?] at hz
     simp [hz])⟩

/-- C3 counterexample: at the same concrete state (ammo `[0, 5, 0]`, all
batteries alive, click at `x = 40`, which is strictly nearest to battery
0), an interceptor IS spawned and the ammo array DOES change — refuting
the claim that the input would be dropped. -/
theorem c3_counterexample :
    |(40 : ℚ) - 40| < |(40 : ℚ) - 900 / 2| ∧
    |(40 : ℚ) - 40| < |(40 : ℚ) - (900 - 40)| ∧
    (handlePress 40 100 pressSample).interceptors.length =
      pressSample.interceptors.length + 1 ∧
    (handlePress 40 100 pressSample).ammo ≠ pressSample.ammo := by
  refine ⟨by norm_num, by norm_num, ?_, ?_⟩ <;>
    norm_num [handlePress, pressSample, initialState, batteryPositions, pickBattery]

/-- The spawn scheduler never touches the ammo array. -/
theorem spawnStep_ammo (dt : ℚ) (env : SpawnEnv) (c b : List Bool)
    (s : GameState) : (spawnStep dt env c b s).ammo = s.ammo := by
  simp only [spawnStep]
  split
  · split
    · split <;> rfl
    · rfl
  · rfl

/-- A frame tick never touches the ammo array (the loop only draws it). -/
theorem tick_ammo (dt : ℚ) (env : SpawnEnv) (s : GameState) :
    (tick dt env s).ammo = s.ammo := by
  simp only [tick]
  split
  · split
    · exact spawnStep_ammo dt env s.cities s.batteries _
    · exact spawnStep_ammo dt env s.cities s.batteries _
  · rfl

/-- A click either leaves the ammo array alone or decrements one entry
that was strictly positive. -/
theorem handlePress_ammo (x y : ℚ) (s : GameState) :
    (handlePress x y s).ammo = s.ammo ∨
    ∃ i, 0 < s.ammo.getD i 0 ∧
      (handlePress x y s).ammo = s.ammo.set i (s.ammo.getD i 0 - 1) := by
  simp only [handlePress]
  split
  · exact Or.inl rfl
  · split
    · exact Or.inl rfl
    · cases hp : pickBattery x s.batteries s.ammo (batteryPositions s.width) none with
      | none => exact Or.inl rfl
      | some b =>
        refine Or.inr ⟨b.2.1, ?_, rfl⟩
        exact (pickBattery_sound x s.batteries s.ammo (batteryPositions s.width)
          none (fun c hc => by simp at hc) b hp).2

/-- Entries of the initial ammo allocation are non-negative. -/
theorem initial_ammo_nonneg : ∀ a ∈ INITIAL_AMMO, 0 ≤ a := by decide

/-- In every reachable state the ammo array has exactly three entries and
each entry is a non-negative integer. -/
theorem ammo_nonneg_invariant {s : GameState} (hs : Reachable s) :
    s.ammo.length = 3 ∧ ∀ a ∈ s.ammo, 0 ≤ a := by
  induction hs with
  | init w h => exact ⟨rfl, initial_ammo_nonneg⟩
  | press x y s ih =>
    rcases handlePress_ammo x y _ with heq | ⟨i, hpos, heq⟩
    · rw [heq]; exact ih
    · rw [heq]
      refine ⟨by rw [List.length_set]; exact ih.1, fun a ha => ?_⟩
      rcases List.mem_or_eq_of_mem_set ha with hmem | hval
      · exact ih.2 a hmem
      · rw [hval]; omega
  | frame dt env s ih => rw [tick_ammo]; exact ih
  | next s ih => exact ⟨rfl, initial_ammo_nonneg⟩
  | restart s ih => exact ⟨rfl, initial_ammo_nonneg⟩
  | wincheck s ih => exact ih

/-- C9: every state reachable from game start through clicks, frame
ticks, round initialisations and the win-loss check keeps three
non-negative ammo counts; a click in the playable band while `PLAYING`
fires only a battery whose ammo is strictly positive and decrements
exactly that entry by one; and round initialisation resets the ammo array
to `[20, 40, 20]`. -/
theorem c9_ammo_invariant :
    (∀ s : GameState, Reachable s → s.ammo.length = 3 ∧ ∀ a ∈ s.ammo, 0 ≤ a) ∧
    (∀ (x y : ℚ) (s : GameState) (b : ℚ × ℕ × ℚ),
      s.status = GameStatus.PLAYING → ¬ y > s.height - 60 →
      pickBattery x s.batteries s.ammo (batteryPositions s.width) none = some b →
      0 < s.ammo.getD b.2.1 0 ∧
      (handlePress x y s).ammo = s.ammo.set b.2.1 (s.ammo.getD b.2.1 0 - 1)) ∧
    (∀ (r : ℕ) (s : GameState), (initRound r s).ammo = [20, 40, 20]) := by
  refine ⟨fun s hs => ammo_nonneg_invariant hs, fun x y s b hst hy hp => ?_,
    fun r s => rfl⟩
  refine ⟨(pickBattery_sound x s.batteries s.ammo (batteryPositions s.width)
    none (fun c hc => by simp at hc) b hp).2, ?_⟩
  unfold handlePress
  rw [if_neg (by rw [hst]; simp), if_neg hy, hp]

/-- Witness for C9 at concrete inputs: the freshly mounted state is
reachable with ammo `[20, 40, 20]`; at `pressSample` the pick selects
battery 1 (positive ammo) and the click decrements exactly that entry;
`initRound` resets the ammo. -/
theorem c9_ammo_invariant_witness :
    ((initialState 900 600).ammo.length = 3 ∧
      ∀ a ∈ (initialState 900 600).ammo, 0 ≤ a) ∧
    (0 < pressSample.ammo.getD 1 0 ∧
      (handlePress 40 100 pressSample).ammo =
        pressSample.ammo.set 1 (pressSample.ammo.getD 1 0 - 1)) ∧
    (initRound 4 pressSample).ammo = [20, 40, 20] :=
  ⟨c9_ammo_invariant.1 (initialState 900 600) (Reachable.init 900 600),
   c9_ammo_invariant.2.1 40 100 pressSample (900 / 2, 1, |(40 : ℚ) - 900 / 2|)
     rfl (by norm_num [pressSample, initialState])
     (by norm_num [pressSample, initialState, batteryPositions, pickBattery]),
   c9_ammo_invariant.2.2 4 pressSample⟩

/-- The concrete dead rocket sits on its end point: distance zero. -/
theorem deadRocket_dist : ptDist deadRocket.pos deadRocket.endPt = 0 := by
  simp [ptDist, deadRocket]

/-- The concrete dead missile is exactly 3 units from its target. -/
theorem deadMissile_dist : ptDist deadMissile.pos deadMissile.target = 3 := by
  unfold ptDist deadMissile
  dsimp only
  rw [show ((3 : ℝ) - 0) * ((3 : ℝ) - 0) + ((0 : ℝ) - 0) * ((0 : ℝ) - 0) = 3 ^ 2
    by norm_num]
  exact Real.sqrt_sq (by norm_num)

/-- Updating the concrete dead rocket reports death for any `dt`. -/
theorem deadRocket_update_dead (dt : ℚ) : (deadRocket.update dt).1 = false := by
  unfold EnemyRocket.update
  dsimp only
  rw [if_pos (by rw [deadRocket_dist]; norm_num)]

/-- Updating the concrete dead missile reports death for any `dt`. -/
theorem deadMissile_update_dead (dt : ℚ) : (deadMissile.update dt).1 = false := by
  unfold InterceptorMissile.update
  dsimp only
  rw [if_pos (by rw [deadMissile_dist]; norm_num)]

/-- C10: an update call that returns `false` leaves the projectile
completely unchanged (the death branch returns before any motion), and at
that moment the enemy rocket is strictly within 2 units of its end point
and the interceptor strictly within 5 units of its target. -/
theorem c10_death_tick_frozen (dt : ℚ) (r : EnemyRocket)
    (m : InterceptorMissile) (hr : (r.update dt).1 = false)
    (hm : (m.update dt).1 = false) :
    (r.update dt).2 = r ∧ ptDist r.pos r.endPt < 2 ∧
    (m.update dt).2 = m ∧ ptDist m.pos m.target < 5 := by
  have hrd : ptDist r.pos r.endPt < 2 := by
    by_contra hc
    unfold EnemyRocket.update at hr
    dsimp only at hr
    rw [if_neg hc] at hr
    simp at hr
  have hmd : ptDist m.pos m.target < 5 := by
    by_contra hc
    unfold InterceptorMissile.update at hm
    dsimp only at hm
    rw [if_neg hc] at hm
    simp at hm
  refine ⟨?_, hrd, ?_, hmd⟩
  · unfold EnemyRocket.update
    dsimp only
    rw [if_pos hrd]
  · unfold InterceptorMissile.update
    dsimp only
    rw [if_pos hmd]

/-- Witness for C10 on the concrete dead rocket and missile. -/
theorem c10_death_tick_frozen_witness :
    (deadRocket.update 1).2 = deadRocket ∧
    ptDist deadRocket.pos deadRocket.endPt < 2 ∧
    (deadMissile.update 1).2 = deadMissile ∧
    ptDist deadMissile.pos deadMissile.target < 5 :=
  c10_death_tick_frozen 1 deadRocket deadMissile (deadRocket_update_dead 1)
    (deadMissile_update_dead 1)

/-- C8: an interceptor's speed is the constant 400 (set by the
constructor, never changed by updates, independent of the round); its
update reports death exactly when the remaining distance to the target
is below 5; and a dead interceptor is removed while spawning a blast
centred at its stored target point, not at its final position. -/
theorem c8_interceptor_contract (p q : Point) (m : InterceptorMissile)
    (dt : ℚ) :
    (InterceptorMissile.new p q).speed = 400 ∧
    ((m.update dt).2).speed = m.speed ∧
    ((m.update dt).1 = false ↔ ptDist m.pos m.target < 5) ∧
    ((m.update dt).1 = false →
      interceptorStep dt m = ([], [Explosion.new m.target])) := by
  refine ⟨rfl, ?_, ?_, fun hdead => ?_⟩
  · unfold InterceptorMissile.update
    dsimp only
    split <;> rfl
  · unfold InterceptorMissile.update
    dsimp only
    split
    next h => simp [h]
    next h => simp [h]
  · unfold interceptorStep
    dsimp only
    simp [hdead]

/-- Witness for C8: the concrete missile (3 units from its target, with
its position distinct from the target) dies and is replaced by a blast
at the target. -/
theorem c8_interceptor_contract_witness :
    (deadMissile.update 1).1 = false ∧
    interceptorStep 1 deadMissile = ([], [Explosion.new deadMissile.target]) :=
  have hlt : ptDist deadMissile.pos deadMissile.target < 5 := by
    rw [deadMissile_dist]; norm_num
  have hdead := (c8_interceptor_contract ⟨0, 0⟩ ⟨0, 0⟩ deadMissile 1).2.2.1.mpr hlt
  ⟨hdead, (c8_interceptor_contract ⟨0, 0⟩ ⟨0, 0⟩ deadMissile 1).2.2.2 hdead⟩

/-- C6: a dead enemy rocket resolves exactly one structure — the city at
`targetIndex` when `targetIndex < 6`, otherwise the battery at
`targetIndex - 6` — never both; the frame driver consumes the rocket
(so resolution fires exactly once, at death) and pushes exactly one
blast at the rocket's current position. -/
theorem c6_enemy_hit_resolution (dt : ℚ) (en : EnemyRocket)
    (rest : List EnemyRocket) (cities batteries : List Bool)
    (ex : List Explosion) (hdead : (en.update dt).1 = false) :
    (en.targetIndex < 6 →
      resolveHit en.targetIndex cities batteries =
        (cities.set en.targetIndex false, batteries)) ∧
    (6 ≤ en.targetIndex →
      resolveHit en.targetIndex cities batteries =
        (cities, batteries.set (en.targetIndex - 6) false)) ∧
    enemyPhase dt (en :: rest) cities batteries ex =
      enemyPhase dt rest (resolveHit en.targetIndex cities batteries).1
        (resolveHit en.targetIndex cities batteries).2
        (ex ++ [Explosion.new en.pos]) := by
  refine ⟨fun hi => ?_, fun hi => ?_, ?_⟩
  · unfold resolveHit
    rw [if_pos hi]
  · unfold resolveHit
    rw [if_neg (by omega)]
  · simp [enemyPhase, hdead]

/-- Witness for C6: the concrete dead rocket aimed at city 3 destroys
exactly that city and spawns one blast at its position. -/
theorem c6_enemy_hit_resolution_witness :
    (resolveHit deadRocket.targetIndex (List.replicate 6 true)
        (List.replicate 3 true) =
      ((List.replicate 6 true).set deadRocket.targetIndex false,
        List.replicate 3 true)) ∧
    enemyPhase 1 [deadRocket] (List.replicate 6 true)
        (List.replicate 3 true) [] =
      enemyPhase 1 []
        (resolveHit deadRocket.targetIndex (List.replicate 6 true)
          (List.replicate 3 true)).1
        (resolveHit deadRocket.targetIndex (List.replicate 6 true)
          (List.replicate 3 true)).2
        ([] ++ [Explosion.new deadRocket.pos]) :=
  ⟨(c6_enemy_hit_resolution 1 deadRocket [] (List.replicate 6 true)
      (List.replicate 3 true) [] (deadRocket_update_dead 1)).1 (by decide),
   (c6_enemy_hit_resolution 1 deadRocket [] (List.replicate 6 true)
      (List.replicate 3 true) [] (deadRocket_update_dead 1)).2.2⟩

/-- C7: while `PLAYING` with enemies left to spawn and an expired spawn
timer, if some city or battery is alive a single enemy is appended whose
constructor receives the nominal speed `40 + round * 10`,
`enemiesToSpawn` drops by exactly one and the timer is reset to
`1.5 - min(1, round * 0.1) + jitter` (which, for `jitter` in `[0, 1)`,
lies in the stated jittered interval); with no alive target nothing is
spawned and the step only records the decremented timer (spawning
stalls, no crash). -/
theorem c7_spawn_scheduling (dt : ℚ) (env : SpawnEnv)
    (cities batteries : List Bool) (s : GameState)
    (hst : s.status = GameStatus.PLAYING) (hets : 0 < s.enemiesToSpawn)
    (htimer : s.spawnTimer - dt ≤ 0)
    (hjit : 0 ≤ env.jitter ∧ env.jitter < 1) :
    ((availableTargets cities batteries).isEmpty = false →
      spawnStep dt env cities batteries s =
        (let targets := availableTargets cities batteries
         let targetIdx :=
           targets.getD (Nat.floor (env.pick * (targets.length : ℚ))) 0
         let targetX :=
           if targetIdx < 6 then cityX s.width targetIdx
           else batteryX s.width (targetIdx - 6)
         { s with
             enemies := s.enemies ++
               [EnemyRocket.new s.width s.height targetX targetIdx
                 (40 + (s.round : ℚ) * 10) env.launch]
             enemiesToSpawn := s.enemiesToSpawn - 1
             spawnTimer := 3 / 2 - min 1 ((s.round : ℚ) * (1 / 10)) + env.jitter })) ∧
    (∀ (w h tx : ℚ) (ti : ℕ),
      (EnemyRocket.new w h tx ti (40 + (s.round : ℚ) * 10) env.launch).speed =
        (40 + (s.round : ℚ) * 10) * (2 / 3)) ∧
    (3 / 2 - min 1 ((s.round : ℚ) * (1 / 10)) ≤
        3 / 2 - min 1 ((s.round : ℚ) * (1 / 10)) + env.jitter ∧
      3 / 2 - min 1 ((s.round : ℚ) * (1 / 10)) + env.jitter <
        5 / 2 - min 1 ((s.round : ℚ) * (1 / 10))) ∧
    ((availableTargets cities batteries).isEmpty = true →
      spawnStep dt env cities batteries s =
        { s with spawnTimer := s.spawnTimer - dt }) := by
  refine ⟨fun hne => ?_, fun w h tx ti => rfl,
    ⟨by linarith [hjit.1], by linarith [hjit.2]⟩, fun hemp => ?_⟩
  · unfold spawnStep
    rw [if_pos ⟨hst, hets⟩]
    dsimp only
    rw [if_pos htimer, if_neg (by simp [hne])]
  · unfold spawnStep
    rw [if_pos ⟨hst, hets⟩]
    dsimp only
    rw [if_pos htimer, if_pos hemp]

/-- Witness for C7: at a concrete `PLAYING` state a spawn fires with all
structures alive, and with every structure destroyed the scheduler only
decrements the timer. -/
theorem c7_spawn_scheduling_witness :
    (spawnStep (1 / 10) ⟨0, 0, 0⟩ (List.replicate 6 true)
        (List.replicate 3 true) pressSample =
      (let targets :=
         availableTargets (List.replicate 6 true) (List.replicate 3 true)
       let targetIdx :=
         targets.getD (Nat.floor ((0 : ℚ) * (targets.length : ℚ))) 0
       let targetX :=
         if targetIdx < 6 then cityX pressSample.width targetIdx
         else batteryX pressSample.width (targetIdx - 6)
       { pressSample with
           enemies := pressSample.enemies ++
             [EnemyRocket.new pressSample.width pressSample.height targetX
               targetIdx (40 + (pressSample.round : ℚ) * 10) 0]
           enemiesToSpawn := pressSample.enemiesToSpawn - 1
           spawnTimer :=
             3 / 2 - min 1 ((pressSample.round : ℚ) * (1 / 10)) + 0 })) ∧
    spawnStep (1 / 10) ⟨0, 0, 0⟩ (List.replicate 6 false)
        (List.replicate 3 false) pressSample =
      { pressSample with spawnTimer := pressSample.spawnTimer - 1 / 10 } :=
  ⟨(c7_spawn_scheduling (1 / 10) ⟨0, 0, 0⟩ (List.replicate 6 true)
      (List.replicate 3 true) pressSample rfl (by decide)
      (by norm_num [pressSample, initialState]) (by norm_num)).1 rfl,
   (c7_spawn_scheduling (1 / 10) ⟨0, 0, 0⟩ (List.replicate 6 false)
      (List.replicate 3 false) pressSample rfl (by decide)
      (by norm_num [pressSample, initialState]) (by norm_num)).2.2.2 rfl⟩

/-- Specification of one explosion's enemy filter: the survivors form a
sublist, an enemy survives exactly when the blast does not reach it, and
the removal counter plus the survivor count restores the input length. -/
theorem collide_spec (e : Explosion) (l : List EnemyRocket) :
    (collide e l).1.Sublist l ∧
    (∀ en ∈ l, (en ∈ (collide e l).1 ↔ ¬ blastHits e en)) ∧
    (collide e l).2 + (collide e l).1.length = l.length := by
  induction l with
  | nil =>
    refine ⟨by simp [collide], ?_, rfl⟩
    intro en hen
    simp at hen
  | cons en rest ih =>
    obtain ⟨hsub, hmem, hlen⟩ := ih
    by_cases hhit : blastHits e en
    · have hhit' : ptDist e.pos en.pos < ((e.radius : ℚ) : ℝ) := hhit
      have hstep : collide e (en :: rest) =
          ((collide e rest).1, (collide e rest).2 + 1) := by
        simp only [collide]
        rw [if_pos hhit']
      simp only [hstep]
      refine ⟨hsub.cons en, ?_, ?_⟩
      · intro a ha
        rcases List.mem_cons.mp ha with rfl | hmem_a
        · exact iff_of_false
            (fun hin => absurd ((hmem a (hsub.subset hin)).mp hin) (not_not_intro hhit))
            (not_not_intro hhit)
        · exact hmem a hmem_a
      · simp only [List.length_cons]
        omega
    · have hhit' : ¬ ptDist e.pos en.pos < ((e.radius : ℚ) : ℝ) := hhit
      have hstep : collide e (en :: rest) =
          (en :: (collide e rest).1, (collide e rest).2) := by
        simp only [collide]
        rw [if_neg hhit']
      simp only [hstep]
      refine ⟨hsub.cons₂ en, ?_, ?_⟩
      · intro a ha
        rcases List.mem_cons.mp ha with rfl | hmem_a
        · exact iff_of_true (List.mem_cons_self a _) hhit
        · rw [List.mem_cons]
          constructor
          · rintro (rfl | h)
            · exact hhit
            · exact (hmem a hmem_a).mp h
          · intro h
            exact Or.inr ((hmem a hmem_a).mpr h)
      · simp only [List.length_cons]
        omega

/-- Specification of the whole explosion pass: an enemy of the input list
survives exactly when no explosion of the frame (after its own update)
reaches it; the score grows by `20` per removed enemy and the destroyed
counter by one per removed enemy. -/
theorem explosionPhase_spec (dt : ℚ) (es : List Explosion) :
    ∀ (l : List EnemyRocket) (sc : ℤ) (d : ℕ),
      (explosionPhase dt es l sc d).2.1.Sublist l ∧
      (∀ en ∈ l, (en ∈ (explosionPhase dt es l sc d).2.1 ↔
        ∀ e ∈ es, ¬ blastHits (e.update dt).2 en)) ∧
      (explosionPhase dt es l sc d).2.2.1 =
        sc + 20 * ((l.length - (explosionPhase dt es l sc d).2.1.length : ℕ) : ℤ) ∧
      (explosionPhase dt es l sc d).2.2.2 =
        d + (l.length - (explosionPhase dt es l sc d).2.1.length) := by
  induction es with
  | nil =>
    intro l sc d
    refine ⟨List.Sublist.refl l, fun en hen => iff_of_true hen (by simp), ?_, ?_⟩
    · show sc = sc + 20 * ((l.length - l.length : ℕ) : ℤ)
      simp
    · show d = d + (l.length - l.length)
      simp
  | cons e rest ih =>
    intro l sc d
    obtain ⟨hcsub, hcmem, hclen⟩ := collide_spec (e.update dt).2 l
    obtain ⟨hsub, hmem, hsc, hd⟩ := ih (collide (e.update dt).2 l).1
      (sc + 20 * ((collide (e.update dt).2 l).2 : ℤ))
      (d + (collide (e.update dt).2 l).2)
    have hres : (explosionPhase dt (e :: rest) l sc d).2 =
        (explosionPhase dt rest (collide (e.update dt).2 l).1
          (sc + 20 * ((collide (e.update dt).2 l).2 : ℤ))
          (d + (collide (e.update dt).2 l).2)).2 := rfl
    rw [hres]
    refine ⟨hsub.trans hcsub, ?_, ?_, ?_⟩
    · intro en hen
      by_cases hhit : blastHits (e.update dt).2 en
      · have hnotmid : en ∉ (collide (e.update dt).2 l).1 := fun hin =>
          absurd ((hcmem en hen).mp hin) (not_not_intro hhit)
        refine iff_of_false (fun hin => hnotmid (hsub.subset hin)) ?_
        exact fun hall => hall e (List.mem_cons_self e rest) hhit
      · have hmid : en ∈ (collide (e.update dt).2 l).1 := (hcmem en hen).mpr hhit
        rw [hmem en hmid, List.forall_mem_cons]
        simp [hhit]
    · rw [hsc]
      have hle := hsub.length_le
      omega
    · rw [hd]
      have hle := hsub.length_le
      omega

/-- C4: in one frame's explosion pass, a live enemy projectile is removed
exactly when some explosion (with the radius it has after this frame's
update) is strictly closer to it than that radius — the check is
independent per blast, so survival means surviving every blast of the
frame — and each removal adds exactly 20 to the score and exactly one to
the round's destroyed counter. -/
theorem c4_blast_collisions (dt : ℚ) (es : List Explosion)
    (l : List EnemyRocket) (sc : ℤ) (d : ℕ) :
    (explosionPhase dt es l sc d).2.1.Sublist l ∧
    (∀ en ∈ l, (en ∈ (explosionPhase dt es l sc d).2.1 ↔
      ∀ e ∈ es, ¬ blastHits (e.update dt).2 en)) ∧
    (explosionPhase dt es l sc d).2.2.1 =
      sc + 20 * ((l.length - (explosionPhase dt es l sc d).2.1.length : ℕ) : ℤ) ∧
    (explosionPhase dt es l sc d).2.2.2 =
      d + (l.length - (explosionPhase dt es l sc d).2.1.length) :=
  explosionPhase_spec dt es l sc d

/-- Witness for C4 at concrete inputs (one fresh explosion, an enemy
list containing the concrete dead rocket, score 7, counter 2). -/
theorem c4_blast_collisions_witness :
    (explosionPhase 1 [Explosion.new ⟨0, 0⟩] [deadRocket] 7 2).2.1.Sublist
      [deadRocket] ∧
    (∀ en ∈ [deadRocket],
      (en ∈ (explosionPhase 1 [Explosion.new ⟨0, 0⟩] [deadRocket] 7 2).2.1 ↔
        ∀ e ∈ [Explosion.new ⟨0, 0⟩], ¬ blastHits (e.update 1).2 en)) ∧
    (explosionPhase 1 [Explosion.new ⟨0, 0⟩] [deadRocket] 7 2).2.2.1 =
      7 + 20 * (((List.length [deadRocket]) -
        (explosionPhase 1 [Explosion.new ⟨0, 0⟩] [deadRocket] 7 2).2.1.length : ℕ) : ℤ) ∧
    (explosionPhase 1 [Explosion.new ⟨0, 0⟩] [deadRocket] 7 2).2.2.2 =
      2 + ((List.length [deadRocket]) -
        (explosionPhase 1 [Explosion.new ⟨0, 0⟩] [deadRocket] 7 2).2.1.length) :=
  c4_blast_collisions 1 [Explosion.new ⟨0, 0⟩] [deadRocket] 7 2

end SunLight
